import Mathlib

/-!
Shallow embedding of the scrambl puzzle-timer core (src/src/App.tsx,
src/src/lib/scramble.ts, src/src/hooks/useTimer.ts, src/src/utils/formatTime.ts,
src/src/types.ts), with theorems settling the specification claims.

Modelling conventions:
- JavaScript numbers that can be Infinity (effective solve times) are
  modelled as `WithTop ℤ` (⊤ = Infinity); solve times are integer
  milliseconds (Date.now deltas, Math.round results), so no rounding is
  lost.  The trimmed mean divides at the end, into `WithTop ℚ`.
- Math.random() returns a binary double in [0,1); every such double is
  exactly num / 2^exp for naturals num < 2^exp.  A run of the program
  consumes a stream of such values, modelled as `List Rand` with the
  validity predicate `ValidRand`.  A rejection loop that exhausts the
  modelled stream yields `fuelOut`: the JavaScript loop is still running
  after consuming that much entropy, so a result of `fuelOut` for every
  finite valid stream means the loop never terminates.
-/

namespace Scrambl

/-- One Math.random() output: the dyadic value num / 2^exp. -/
structure Rand where
  num : ℕ
  exp : ℕ
deriving DecidableEq, Repr

/-- The value lies in [0, 1). -/
def Rand.inUnit (r : Rand) : Prop := r.num < 2 ^ r.exp

instance : DecidablePred Rand.inUnit := fun r =>
  inferInstanceAs (Decidable (r.num < 2 ^ r.exp))

/-- A stream of Math.random() outputs: each element lies in [0, 1). -/
def ValidRand (s : List Rand) : Prop := ∀ r ∈ s, r.inUnit

instance : DecidablePred ValidRand := fun s =>
  inferInstanceAs (Decidable (∀ r ∈ s, r.inUnit))

/-- Math.floor(r * k) for a Math.random() output r = num / 2^exp:
floor((num * k) / 2^exp) is natural division. -/
def randIndex (r : Rand) (k : ℕ) : ℕ := r.num * k / 2 ^ r.exp

/-- The natural-division definition agrees with the real floor of r * k. -/
theorem randIndex_eq_floor (r : Rand) (k : ℕ) :
    (randIndex r k : ℤ) = ⌊((r.num : ℚ) / 2 ^ r.exp) * k⌋ := by
  have hpow : (0:ℚ) < 2 ^ r.exp := by positivity
  have hval : ((r.num : ℚ) / 2 ^ r.exp) * k = ((r.num * k : ℕ) : ℚ) / ((2 ^ r.exp : ℕ) : ℚ) := by
    push_cast
    ring
  rw [hval, eq_comm, Int.floor_eq_iff]
  have hpow2 : (0:ℚ) < ((2 ^ r.exp : ℕ) : ℚ) := by positivity
  simp only [randIndex]
  constructor
  · rw [le_div_iff₀ hpow2]
    exact_mod_cast Nat.div_mul_le_self (r.num * k) (2 ^ r.exp)
  · rw [div_lt_iff₀ hpow2]
    have h2 : r.num * k < (r.num * k / 2 ^ r.exp + 1) * 2 ^ r.exp := by
      rw [Nat.add_mul, Nat.one_mul]
      exact Nat.lt_div_mul_add (show 0 < 2 ^ r.exp by positivity)
    exact_mod_cast h2

theorem randIndex_lt (r : Rand) (k : ℕ) (h : r.inUnit) (hk : 1 ≤ k) :
    randIndex r k < k := by
  have hpow : 0 < 2 ^ r.exp := Nat.pos_pow_of_pos _ (by norm_num)
  rw [randIndex, Nat.div_lt_iff_lt_mul hpow]
  calc r.num * k < 2 ^ r.exp * k := Nat.mul_lt_mul_of_lt_of_le h (le_refl k) (by omega)
  _ = k * 2 ^ r.exp := Nat.mul_comm _ _

/-! ### Data model (src/src/types.ts, src/src/App.tsx) -/

/-- Penalty = 'none' | '+2' | 'dnf'. -/
inductive Penalty where
  | none
  | plusTwo
  | dnf
deriving DecidableEq, Repr

/-- SolveTime record; the `penalty` field is optional in the source
(`penalty?: Penalty`), modelled with `Option`. -/
structure SolveTime where
  id : ℤ
  time : ℕ
  date : String
  penalty : Option Penalty
deriving DecidableEq, Repr

/-- Effective solve time (⊤ = Infinity).  Source: effectiveTime in App.tsx. -/
def effectiveTime (solve : SolveTime) : WithTop ℤ :=
  match solve.penalty with
  | some Penalty.dnf => ⊤
  | some Penalty.plusTwo => ((solve.time : ℤ) + 2000 : ℤ)
  | _ => ((solve.time : ℤ) : WithTop ℤ)

/-! ### Time formatting (src/src/utils/formatTime.ts and its copy in App.tsx) -/

/-- String.padStart(2, zero) as used inside the toFixed model. -/
def pad2 (n : ℕ) : String :=
  if (Nat.repr n).length < 2 then "0" ++ Nat.repr n else Nat.repr n

/-- (ms / 1000).toFixed(2) for an integer millisecond count ms: the number of
centiseconds rounded half-up, printed as integer part, dot, two digits.
JavaScript computes this through a binary double; for inputs that are not an
exact half-tie in centiseconds the double rounds to the same string, and the
inputs in the claims are such inputs. -/
def secondsFixed2 (ms : ℕ) : String :=
  let c := (ms + 5) / 10
  Nat.repr (c / 100) ++ "." ++ pad2 (c % 100)

/-- String.padStart(5, zero). -/
def padStart5 (s : String) : String :=
  String.mk (List.replicate (5 - s.length) (Char.ofNat 48) ++ s.data)

/-- formatTime from formatTime.ts on the integer millisecond counts the solve
records hold: under one minute the seconds with two decimals, otherwise
minutes, a colon, and zero-padded seconds. -/
def formatTime (ms : ℕ) : String :=
  if ms < 60000 then secondsFixed2 ms
  else Nat.repr (ms / 60000) ++ ":" ++ padStart5 (secondsFixed2 (ms % 60000))

/-- x.toFixed(2) for a non-negative rational (the fractional averages). -/
def toFixed2Rat (x : ℚ) : String :=
  let n := (⌊x * 100 + 1 / 2⌋).toNat
  Nat.repr (n / 100) ++ "." ++ pad2 (n % 100)

/-- formatTime on the fractional millisecond values the averages produce;
same branches as `formatTime`, with the real floor and remainder. -/
def formatTimeRat (ms : ℚ) : String :=
  let totalSeconds := ms / 1000
  if totalSeconds < 60 then toFixed2Rat totalSeconds
  else
    let minutes := (⌊totalSeconds / 60⌋).toNat
    Nat.repr minutes ++ ":" ++ padStart5 (toFixed2Rat (totalSeconds - 60 * minutes))

/-- displaySolveTime from App.tsx. -/
def displaySolveTime (solve : SolveTime) : String :=
  match solve.penalty with
  | some Penalty.dnf => "DNF"
  | some Penalty.plusTwo => formatTime solve.time ++ "+2"
  | _ => formatTime solve.time

/-- formatAverage from App.tsx: Infinity renders as DNF. -/
def formatAverage (ms : WithTop ℚ) : String :=
  match ms with
  | ⊤ => "DNF"
  | (q : ℚ) => formatTimeRat q

/-! ### Statistics (App.tsx) -/

/-- Division of a possibly-infinite integer sum by the window size, as a
possibly-infinite rational.  Infinity / n is Infinity; n = 0 never occurs in
the program (the app only evaluates windows of size 5 and 12, so the trimmed
middle has at least 3 elements). -/
def eDivNat (x : WithTop ℤ) (n : ℕ) : WithTop ℚ :=
  match n with
  | 0 => ⊤
  | Nat.succ m => x.map (fun z : ℤ => (z : ℚ) / (Nat.succ m : ℚ))

/-- trimmedMean from App.tsx: sort ascending, drop the first and last element
of the sorted copy (slice(1, -1)), average the rest.  The reduce from 0 is the
left fold; addition on `WithTop ℤ` absorbs ⊤ exactly as float addition absorbs
Infinity (no negative infinities occur). -/
def trimmedMean (times : List (WithTop ℤ)) : WithTop ℚ :=
  let sorted := List.insertionSort (· ≤ ·) times
  let middle := (sorted.drop 1).dropLast
  eDivNat (middle.foldl (· + ·) 0) middle.length

/-- The best-time computation in App (validTimes / best): minimum of the
finite effective times, none when there is no finite one. -/
def best (solves : List SolveTime) : Option (WithTop ℤ) :=
  match (solves.map effectiveTime).filter (fun t => decide (t ≠ ⊤)) with
  | [] => Option.none
  | x :: xs => some (xs.foldl min x)

/-- Make an absent penalty field explicit: the normal form a record saved
before penalties existed would take after an explicit no-penalty edit. -/
def fillPenalty (s : SolveTime) : SolveTime :=
  match s.penalty with
  | Option.none => { s with penalty := some Penalty.none }
  | some _ => s

/-! ### Manual time edits (App.tsx updateSolve / applyEditTime) -/

/-- updateSolve with the patch applyEditTime sends: replace the time of the
record with the matching id, leaving every other record and field intact. -/
def updateSolveTime (solves : List SolveTime) (id : ℤ) (newTime : ℕ) :
    List SolveTime :=
  solves.map (fun s => if s.id = id then { s with time := newTime } else s)

/-- The parse in applyEditTime: split on the colon; with exactly two parts,
parseFloat(min) * 60 + parseFloat(sec), otherwise parseFloat of the first
part.  `pf` stands for the parseFloat builtin, `Option.none` for NaN, which
propagates through the arithmetic. -/
def parseEditInput (pf : String → Option ℚ) (input : String) : Option ℚ :=
  let parts := input.splitOn ":"
  if parts.length = 2 then
    match pf (parts.getD 0 ""), pf (parts.getD 1 "") with
    | some a, some b => some (a * 60 + b)
    | _, _ => Option.none
  else pf (parts.getD 0 "")

/-- applyEditTime: reject (returning the state untouched, modal still open)
when the parse is NaN or non-positive; otherwise patch the edited record with
Math.round(seconds * 1000) and close the modal. -/
def applyEditTime (pf : String → Option ℚ) (input : String)
    (editingSolve : Option SolveTime) (solves : List SolveTime) :
    Option SolveTime × List SolveTime :=
  match editingSolve with
  | Option.none => (editingSolve, solves)
  | some ed =>
    match parseEditInput pf input with
    | Option.none => (editingSolve, solves)
    | some secs =>
      if secs ≤ 0 then (editingSolve, solves)
      else (Option.none, updateSolveTime solves ed.id (⌊secs * 1000 + 1/2⌋).toNat)

/-! ### Scramble generator (src/src/lib/scramble.ts) -/

/-- FaceConfig: one face letter with its candidate base moves. -/
structure FaceConfig where
  face : String
  moves : List String
deriving DecidableEq, Repr

inductive EventGroup where
  | nxn
  | bldOh
  | other
deriving DecidableEq, Repr

/-- The AXIS record: R/L share axis 0, U/D axis 1, F/B axis 2; any other key
reads as undefined (`Option.none`), and undefined === undefined holds in
JavaScript, which the `Option` equality reproduces. -/
def AXIS (f : String) : Option ℕ :=
  if f = "R" then some 0 else if f = "L" then some 0
  else if f = "U" then some 1 else if f = "D" then some 1
  else if f = "F" then some 2 else if f = "B" then some 2
  else Option.none

/-- MODIFIERS: unmodified, inverse (\x27), double. -/
def MODIFIERS : List String := ["", "\x27", "2"]

/-- The do-while rejection test on a candidate face name, given the last and
second-to-last chosen face names ("" plays the initial falsy value, so the
axis clause only applies once both are set). -/
def rejectName (f last second : String) : Bool :=
  f == last ||
    (last != "" && second != "" && AXIS f == AXIS last && AXIS last == AXIS second)

/-- Outcome of a run against a finite random stream: a value, a thrown
TypeError (indexing an empty face list), or exhaustion of the modelled
entropy (`fuelOut`: the JavaScript loop is still running at that point). -/
inductive GenResult (α : Type) where
  | ok (val : α)
  | jsError
  | fuelOut
deriving DecidableEq, Repr

/-- The inner do-while of generateScramble: draw faces[Math.floor(random *
faces.length)] until the rejection test fails.  An out-of-range index reads
undefined and the test then throws (`jsError`). -/
def pickFace (faces : List FaceConfig) (last second : String) :
    List Rand → GenResult (FaceConfig × List Rand)
  | [] => .fuelOut
  | r :: rest =>
    match faces.get? (randIndex r faces.length) with
    | Option.none => .jsError
    | some fe =>
      if rejectName fe.face last second then pickFace faces last second rest
      else .ok (fe, rest)

/-- The main loop of generateScramble: n iterations, each drawing an accepted
face, then a base move from its candidate list and a modifier.  The produced
list keeps the chosen face name next to the emitted token; the scramble
string is the join of the tokens.  A missing candidate move reads undefined,
which string concatenation coerces to "undefined". -/
def genMoves (faces : List FaceConfig) :
    ℕ → String → String → List Rand → GenResult (List (String × String) × List Rand)
  | 0, _, _, s => .ok ([], s)
  | n + 1, last, second, s =>
    match pickFace faces last second s with
    | .jsError => .jsError
    | .fuelOut => .fuelOut
    | .ok (fe, s1) =>
      match s1 with
      | [] => .fuelOut
      | rMove :: s2 =>
        match s2 with
        | [] => .fuelOut
        | rMod :: s3 =>
          let base := fe.moves.getD (randIndex rMove fe.moves.length) "undefined"
          let modifier := MODIFIERS.getD (randIndex rMod MODIFIERS.length) "undefined"
          match genMoves faces n fe.face last s3 with
          | .ok (tl, s4) => .ok ((fe.face, base ++ modifier) :: tl, s4)
          | .jsError => .jsError
          | .fuelOut => .fuelOut

/-- EventConfig; customScramble, when present, is itself a consumer of the
random stream. -/
structure EventConfig where
  id : String
  label : String
  scrambleLength : ℕ
  faces : List FaceConfig
  customScramble : Option (List Rand → GenResult String)
  group : EventGroup

/-- generateScramble: dispatch to the custom generator when present, else run
the face-turning loop and join the tokens with single spaces. -/
def generateScramble (event : EventConfig) (s : List Rand) : GenResult String :=
  match event.customScramble with
  | some g => g s
  | Option.none =>
    match genMoves event.faces event.scrambleLength "" "" s with
    | .ok (ms, _) => .ok (String.intercalate " " (ms.map Prod.snd))
    | .jsError => .jsError
    | .fuelOut => .fuelOut

/-- FACES_2 from the source (2x2: R, U, F). -/
def FACES_2 : List FaceConfig := [⟨"R", ["R"]⟩, ⟨"U", ["U"]⟩, ⟨"F", ["F"]⟩]

/-- A face list violating the axis-diversity invariant: two faces, one axis. -/
def axisBadFaces : List FaceConfig := [⟨"R", ["R"]⟩, ⟨"L", ["L"]⟩]

/-- A FaceTurning event over `axisBadFaces` with scrambleLength 3. -/
def axisBadEvent : EventConfig :=
  ⟨"bad", "bad", 3, axisBadFaces, Option.none, EventGroup.other⟩

/-- A FaceTurning event with an empty face list and positive length. -/
def emptyFacesEvent (n : ℕ) : EventConfig :=
  ⟨"empty", "empty", n + 1, [], Option.none, EventGroup.other⟩

/-- The rejection loop never terminates on the axis-bad spec: however much
randomness in [0,1) is supplied, generation neither returns a scramble nor
signals an error. -/
def axisBadDiverges : Prop :=
  ∀ s : List Rand, ValidRand s → generateScramble axisBadEvent s = GenResult.fuelOut

/-! ### Sq-1 (generateSq1Scramble) -/

/-- One Sq-1 rotation component: Math.floor(Math.random() * 12) - 5. -/
def sq1Component (r : Rand) : ℤ := (randIndex r 12 : ℤ) - 5

/-- The Sq-1 do-while: draw (top, bottom) and redraw on the exact pair
(0, 0). -/
def pickSq1Pair : List Rand → Option ((ℤ × ℤ) × List Rand)
  | [] => Option.none
  | [_] => Option.none
  | r1 :: r2 :: rest =>
    let top := sq1Component r1
    let bottom := sq1Component r2
    if top = 0 ∧ bottom = 0 then pickSq1Pair rest
    else some ((top, bottom), rest)

/-- The 13-iteration loop of generateSq1Scramble. -/
def genSq1 : ℕ → List Rand → Option (List (ℤ × ℤ) × List Rand)
  | 0, s => some ([], s)
  | n + 1, s =>
    match pickSq1Pair s with
    | Option.none => Option.none
    | some (p, s1) =>
      match genSq1 n s1 with
      | Option.none => Option.none
      | some (ps, s2) => some (p :: ps, s2)

/-- The template literal for one pair. -/
def sq1PairString (p : ℤ × ℤ) : String :=
  "(" ++ toString p.1 ++ "," ++ toString p.2 ++ ")"

/-- generateSq1Scramble: 13 pairs joined by " / ". -/
def generateSq1Scramble (s : List Rand) : Option String :=
  match genSq1 13 s with
  | Option.none => Option.none
  | some (ps, _) => some (String.intercalate " / " (ps.map sq1PairString))

/-! ### Trace predicates for the face-turning invariants -/

/-- Every step of the trace was accepted by the rejection test against its two
predecessors (b the more recent, a the older). -/
def TriChain : String → String → List String → Prop
  | _, _, [] => True
  | a, b, c :: tl => rejectName c b a = false ∧ TriChain b c tl

/-- No three consecutive entries share the same AXIS value. -/
def noAxisTriple : List String → Prop
  | a :: b :: c :: tl =>
    ¬(AXIS a = AXIS b ∧ AXIS b = AXIS c) ∧ noAxisTriple (b :: c :: tl)
  | _ => True

/-! ### Timer interaction state machine (App.tsx handlers / useTimer.ts)

The keyboard and pointer adapters feed the same logic, so the machine is
driven by two normalized events, a down and an up, each carrying the
wall-clock instant at which it arrives.  The one-shot hold timeout is
modelled by its deadline; it fires (setting the phase to ready, as the
setTimeout callback does unconditionally) before any event that arrives at or
after the deadline. -/

inductive Phase where
  | idle
  | holding
  | ready
  | running
deriving DecidableEq, Repr

def HOLD_DELAY : ℕ := 550

structure TimerS where
  phase : Phase
  /-- Deadline of the pending setTimeout, none after clearTimeout or fire. -/
  holdDeadline : Option ℕ
  /-- startTimeRef; 0 when cleared. -/
  startTime : ℕ
  /-- displayTime. -/
  display : ℕ
  /-- The finalTime values handed to the stop path, oldest first. -/
  stops : List ℕ
deriving DecidableEq, Repr

def initTimer : TimerS := ⟨Phase.idle, Option.none, 0, 0, []⟩

/-- stopTimer: cancel the redraw loop, record finalTime = now - startTime,
clear startTime, return to idle. -/
def stopTimer (t : ℕ) (s : TimerS) : TimerS :=
  { s with phase := Phase.idle, startTime := 0,
           display := t - s.startTime, stops := s.stops ++ [t - s.startTime] }

/-- startTimer: record the start instant and enter running. -/
def startTimer (t : ℕ) (s : TimerS) : TimerS :=
  { s with phase := Phase.running, startTime := t }

/-- The down handler (keydown with repeats filtered, mousedown, touchstart):
idle arms the hold timeout and enters holding; running stops. -/
def handleDown (t : ℕ) (s : TimerS) : TimerS :=
  match s.phase with
  | Phase.idle => { s with phase := Phase.holding, holdDeadline := some (t + HOLD_DELAY) }
  | Phase.running => stopTimer t s
  | _ => s

/-- The up handler (keyup, mouseup, touchend): holding clears the timeout and
returns to idle; ready starts the timer. -/
def handleUp (t : ℕ) (s : TimerS) : TimerS :=
  match s.phase with
  | Phase.holding => { s with phase := Phase.idle, holdDeadline := Option.none }
  | Phase.ready => startTimer t s
  | _ => s

/-- The setTimeout callback: setTimerState to ready, unconditionally. -/
def fireTimeout (s : TimerS) : TimerS :=
  { s with phase := Phase.ready, holdDeadline := Option.none }

/-- Whether the pending hold timeout is due at instant t. -/
def timeoutDue (t : ℕ) (s : TimerS) : Bool :=
  match s.holdDeadline with
  | some d => decide (d ≤ t)
  | Option.none => false

inductive TEvent where
  | down (t : ℕ)
  | up (t : ℕ)
deriving DecidableEq, Repr

/-- Process one input event at its instant: an elapsed hold timeout fires
first, then the handler runs. -/
def timerStep (s : TimerS) : TEvent → TimerS
  | TEvent.down t => handleDown t (if timeoutDue t s then fireTimeout s else s)
  | TEvent.up t => handleUp t (if timeoutDue t s then fireTimeout s else s)

/-- Run a time-ordered event trace. -/
def timerRun (s : TimerS) (es : List TEvent) : TimerS := es.foldl timerStep s

/-! ## Theorems -/

/-! ### Generic fold lemmas for Math.min over a list -/

theorem foldl_min_mem {α : Type} [LinearOrder α] :
    ∀ (l : List α) (a : α), l.foldl min a ∈ a :: l := by
  intro l
  induction l with
  | nil => intro a; simp
  | cons b t ih =>
    intro a
    simp only [List.foldl]
    rcases List.mem_cons.mp (ih (min a b)) with h1 | h1
    · rw [h1]
      rcases min_choice a b with hm | hm
      · rw [hm]; exact List.mem_cons_self _ _
      · rw [hm]; exact List.mem_cons_of_mem _ (List.mem_cons_self _ _)
    · exact List.mem_cons_of_mem _ (List.mem_cons_of_mem _ h1)

theorem foldl_min_le {α : Type} [LinearOrder α] :
    ∀ (l : List α) (a x : α), x ∈ a :: l → l.foldl min a ≤ x := by
  intro l
  induction l with
  | nil =>
    intro a x hx
    simp only [List.mem_singleton] at hx
    simp [hx]
  | cons b t ih =>
    intro a x hx
    simp only [List.foldl]
    rcases List.mem_cons.mp hx with h | h
    · subst h
      exact le_trans (ih (min x b) (min x b) (List.mem_cons_self _ _)) (min_le_left _ _)
    · rcases List.mem_cons.mp h with h2 | h2
      · subst h2
        exact le_trans (ih (min a x) (min a x) (List.mem_cons_self _ _)) (min_le_right _ _)
      · exact ih (min a b) x (List.mem_cons_of_mem _ h2)

/-- C6: effectiveTime maps DNF to Infinity, PlusTwo to rawTimeMs + 2000 and
anything else to rawTimeMs; best is the minimum effective time over the
records with a finite effective time, and null exactly when every record's
effective time is infinite (history empty or all DNF). -/
theorem effectiveTime_best_spec (l : List SolveTime) :
    (∀ s : SolveTime,
      (s.penalty = some Penalty.dnf → effectiveTime s = ⊤) ∧
      (s.penalty = some Penalty.plusTwo →
        effectiveTime s = (((s.time : ℤ) + 2000 : ℤ) : WithTop ℤ)) ∧
      (s.penalty = Option.none ∨ s.penalty = some Penalty.none →
        effectiveTime s = ((s.time : ℤ) : WithTop ℤ))) ∧
    (best l = Option.none ↔ ∀ t ∈ l.map effectiveTime, t = ⊤) ∧
    (∀ b, best l = some b →
      (b ∈ l.map effectiveTime ∧ b ≠ ⊤) ∧
      ∀ t ∈ l.map effectiveTime, t ≠ ⊤ → b ≤ t) := by
  refine ⟨?_, ?_⟩
  · intro s
    refine ⟨fun h => by simp [effectiveTime, h], fun h => by simp [effectiveTime, h], ?_⟩
    rintro (h | h) <;> simp [effectiveTime, h]
  · unfold best
    cases hF : (l.map effectiveTime).filter (fun t => decide (t ≠ ⊤)) with
    | nil =>
      rw [List.filter_eq_nil] at hF
      constructor
      · constructor
        · intro _ t ht
          by_contra hne
          exact hF t ht (by simpa using hne)
        · intro _; rfl
      · intro b hb; exact absurd hb (by simp)
    | cons x xs =>
      constructor
      · constructor
        · intro h; exact absurd h (by simp)
        · intro hall
          have hx : x ∈ (l.map effectiveTime).filter (fun t => decide (t ≠ ⊤)) := by
            rw [hF]; exact List.mem_cons_self _ _
          rw [List.mem_filter] at hx
          exact absurd (hall x hx.1) (by simpa using hx.2)
      · intro b hb
        have hbval : b = xs.foldl min x := by simpa using hb.symm
        have hbmem : b ∈ x :: xs := hbval ▸ foldl_min_mem xs x
        have hbfil : b ∈ (l.map effectiveTime).filter (fun t => decide (t ≠ ⊤)) := by
          rw [hF]; exact hbmem
        rw [List.mem_filter] at hbfil
        refine ⟨⟨hbfil.1, by simpa using hbfil.2⟩, ?_⟩
        intro t ht htne
        have htfil : t ∈ (l.map effectiveTime).filter (fun t => decide (t ≠ ⊤)) := by
          rw [List.mem_filter]; exact ⟨ht, by simpa using htne⟩
        rw [hF] at htfil
        exact hbval ▸ foldl_min_le xs x t htfil

/-- C10: a record whose penalty field is absent behaves exactly like an
unpenalized record: effective time is the raw time, the display is the plain
formatted time, and making the field explicit changes neither the effective
times nor best nor any trimmed mean computed from them. -/
theorem missingPenalty_spec (s : SolveTime) (l : List SolveTime) :
    (s.penalty = Option.none →
      effectiveTime s = ((s.time : ℤ) : WithTop ℤ) ∧
      displaySolveTime s = formatTime s.time) ∧
    effectiveTime (fillPenalty s) = effectiveTime s ∧
    displaySolveTime (fillPenalty s) = displaySolveTime s ∧
    (l.map fillPenalty).map effectiveTime = l.map effectiveTime ∧
    best (l.map fillPenalty) = best l ∧
    trimmedMean ((l.map fillPenalty).map effectiveTime) =
      trimmedMean (l.map effectiveTime) := by
  have heff : ∀ u : SolveTime, effectiveTime (fillPenalty u) = effectiveTime u := by
    intro u
    cases hp : u.penalty with
    | none => simp [fillPenalty, effectiveTime, hp]
    | some p => simp [fillPenalty, hp]
  have hdisp : ∀ u : SolveTime, displaySolveTime (fillPenalty u) = displaySolveTime u := by
    intro u
    cases hp : u.penalty with
    | none => simp [fillPenalty, displaySolveTime, hp]
    | some p => simp [fillPenalty, hp]
  have hmap : (l.map fillPenalty).map effectiveTime = l.map effectiveTime := by
    rw [List.map_map]
    exact List.map_congr_left (fun a _ => heff a)
  refine ⟨fun h => ⟨by simp [effectiveTime, h], by simp [displaySolveTime, h]⟩,
    heff s, hdisp s, hmap, ?_, by rw [hmap]⟩
  unfold best
  rw [hmap]

/-- C7: a manual time edit whose input parses to NaN or to a non-positive
number leaves the state exactly as it was: the solve list (hence every field
of the prior record) is unchanged and the function returns normally. -/
theorem applyEditTime_rejects (pf : String → Option ℚ) (input : String)
    (ed : Option SolveTime) (solves : List SolveTime)
    (h : parseEditInput pf input = Option.none ∨
         ∃ q, parseEditInput pf input = some q ∧ q ≤ 0) :
    applyEditTime pf input ed solves = (ed, solves) := by
  cases ed with
  | none => rfl
  | some e =>
    unfold applyEditTime
    rcases h with h | ⟨q, hq, hq0⟩
    · rw [h]
    · rw [hq]
      simp [hq0]

/-- Witness for C7 at a concrete rejected edit. -/
theorem applyEditTime_rejects_witness :
    applyEditTime (fun _ => Option.none) "abc"
        (some ⟨1, 5000, "d", Option.none⟩) [⟨1, 5000, "d", Option.none⟩] =
      (some ⟨1, 5000, "d", Option.none⟩, [⟨1, 5000, "d", Option.none⟩]) :=
  applyEditTime_rejects _ _ _ _ (Or.inl (by simp only [parseEditInput]; split <;> rfl))

/-- C8: a down-event followed by an up-event strictly before the 550 ms hold
delay elapses goes Idle → Holding (hold timeout armed) → Idle, cancels the
pending timeout, and the stop callback is never invoked: the machine returns
to exactly the initial state. -/
theorem holdCancel_spec (t0 t1 : ℕ) (h01 : t0 ≤ t1) (h : t1 < t0 + HOLD_DELAY) :
    timerStep initTimer (TEvent.down t0) =
      { initTimer with phase := Phase.holding, holdDeadline := some (t0 + HOLD_DELAY) } ∧
    timerRun initTimer [TEvent.down t0, TEvent.up t1] = initTimer ∧
    (timerRun initTimer [TEvent.down t0, TEvent.up t1]).stops = [] := by
  have hdown : timerStep initTimer (TEvent.down t0) =
      { initTimer with phase := Phase.holding, holdDeadline := some (t0 + HOLD_DELAY) } := rfl
  have hnotdue : ¬(t0 + HOLD_DELAY ≤ t1) := not_le.mpr h
  have hrun : timerRun initTimer [TEvent.down t0, TEvent.up t1] = initTimer := by
    unfold timerRun
    simp only [List.foldl, hdown]
    simp [timerStep, timeoutDue, hnotdue, handleUp, initTimer]
  exact ⟨hdown, hrun, by rw [hrun]; rfl⟩

/-- Witness for C8 at the concrete trace down at 0, up at 100. -/
theorem holdCancel_spec_witness :
    timerStep initTimer (TEvent.down 0) =
      { initTimer with phase := Phase.holding, holdDeadline := some (0 + HOLD_DELAY) } ∧
    timerRun initTimer [TEvent.down 0, TEvent.up 100] = initTimer ∧
    (timerRun initTimer [TEvent.down 0, TEvent.up 100]).stops = [] :=
  holdCancel_spec 0 100 (by decide) (by decide)

theorem pad2_length : ∀ n : ℕ, n < 100 → (pad2 n).length = 2 := by decide

theorem repr_length_one : ∀ m : ℕ, m < 10 → (Nat.repr m).length = 1 := by decide

theorem repr_length_two : ∀ m : ℕ, m < 100 → 10 ≤ m → (Nat.repr m).length = 2 := by decide

theorem padStart5_length (s : String) :
    (padStart5 s).length = (5 - s.length) + s.length := by
  show (String.mk (List.replicate (5 - s.length) (Char.ofNat 48) ++ s.data)).length = _
  rw [String.length_mk, List.length_append, List.length_replicate]
  rfl

theorem secondsFixed2_length (k : ℕ) (hk : k < 60000) :
    (secondsFixed2 k).length = (Nat.repr ((k + 5) / 1000)).length + 3 := by
  have h1 : (k + 5) / 10 / 100 = (k + 5) / 1000 := by
    rw [Nat.div_div_eq_div_mul]
  have h2 : (k + 5) / 10 % 100 < 100 := Nat.mod_lt _ (by norm_num)
  simp only [secondsFixed2, h1]
  rw [String.length_append, String.length_append, pad2_length _ h2]
  rfl

/-- C9: times under one minute render as seconds with exactly two decimal
digits; times of a minute or more render as minutes, a colon, and a
zero-padded (length 5) seconds-with-two-decimals block; in particular
65432 ms renders as 1:05.43 and 9430 ms as 9.43. -/
theorem formatTime_spec (ms : ℕ) :
    formatTime 65432 = "1:05.43" ∧ formatTime 9430 = "9.43" ∧
    (ms < 60000 →
      formatTime ms = Nat.repr ((ms + 5) / 1000) ++ "." ++ pad2 ((ms + 5) / 10 % 100) ∧
      (pad2 ((ms + 5) / 10 % 100)).length = 2) ∧
    (60000 ≤ ms →
      formatTime ms =
        Nat.repr (ms / 60000) ++ ":" ++ padStart5 (secondsFixed2 (ms % 60000)) ∧
      (padStart5 (secondsFixed2 (ms % 60000))).length = 5) := by
  refine ⟨by decide, by decide, ?_, ?_⟩
  · intro h
    constructor
    · have h1 : (ms + 5) / 10 / 100 = (ms + 5) / 1000 := by
        rw [Nat.div_div_eq_div_mul]
      simp only [formatTime, if_pos h, secondsFixed2, h1]
    · exact pad2_length _ (Nat.mod_lt _ (by norm_num))
  · intro h
    constructor
    · simp only [formatTime, if_neg (not_lt.mpr h)]
    · have hmod : ms % 60000 < 60000 := Nat.mod_lt _ (by norm_num)
      have hsec := secondsFixed2_length (ms % 60000) hmod
      have hint : (ms % 60000 + 5) / 1000 ≤ 60 := by omega
      rw [padStart5_length, hsec]
      rcases Nat.lt_or_ge ((ms % 60000 + 5) / 1000) 10 with h10 | h10
      · rw [repr_length_one _ h10]
      · rw [repr_length_two _ (by omega) h10]

theorem foldl_add_top : ∀ (l : List (WithTop ℤ)) (a : WithTop ℤ),
    (a = ⊤ ∨ ⊤ ∈ l) → l.foldl (· + ·) a = ⊤ := by
  intro l
  induction l with
  | nil =>
    intro a h
    rcases h with h | h
    · exact h
    · exact absurd h (List.not_mem_nil _)
  | cons b t ih =>
    intro a h
    simp only [List.foldl]
    rcases h with h | h
    · exact ih (a + b) (Or.inl (by rw [h, WithTop.top_add]))
    · rcases List.mem_cons.mp h with h1 | h1
      · exact ih (a + b) (Or.inl (by rw [← h1, WithTop.add_top]))
      · exact ih (a + b) (Or.inr h1)

theorem sorted_le_getLast {α : Type} [Preorder α] :
    ∀ (l : List α) (hne : l ≠ []), l.Sorted (· ≤ ·) →
      ∀ x ∈ l, x ≤ l.getLast hne
  | [], hne, _, _, _ => absurd rfl hne
  | [a], _, _, x, hx => by
    simp only [List.mem_singleton] at hx
    subst hx
    exact le_refl _
  | a :: b :: t, _, hl, x, hx => by
    have htne : (b :: t) ≠ [] := List.cons_ne_nil _ _
    rw [List.getLast_cons htne]
    rcases List.mem_cons.mp hx with h1 | h1
    · subst h1
      exact List.rel_of_sorted_cons hl _ (List.getLast_mem htne)
    · exact sorted_le_getLast (b :: t) htne hl.of_cons x h1

/-- C1: trimmedMean sorts the window ascending, removes exactly the (one)
element at the minimum position and the (one) element at the maximum position
of the sorted copy, and averages the remaining elements; an Infinity
surviving the trim makes the result Infinity, rendered DNF; and the P5
instance trimmedMean([∞, 1000, 1200, 1100, 900]) = 1100 holds. -/
theorem trimmedMean_spec (l : List (WithTop ℤ)) (h3 : 3 ≤ l.length) :
    trimmedMean [⊤, ((1000:ℤ) : WithTop ℤ), 1200, 1100, 900] = ((1100:ℚ) : WithTop ℚ) ∧
    List.Sorted (· ≤ ·) (List.insertionSort (· ≤ ·) l) ∧
    (List.insertionSort (· ≤ ·) l).Perm l ∧
    ∃ mn mx mid,
      List.insertionSort (· ≤ ·) l = mn :: (mid ++ [mx]) ∧
      mid = ((List.insertionSort (· ≤ ·) l).drop 1).dropLast ∧
      (∀ x ∈ l, mn ≤ x ∧ x ≤ mx) ∧
      (mid ++ [mn, mx]).Perm l ∧
      trimmedMean l = eDivNat (mid.foldl (· + ·) 0) mid.length ∧
      (⊤ ∈ mid → trimmedMean l = ⊤ ∧ formatAverage (trimmedMean l) = "DNF") := by
  have hsorted := List.sorted_insertionSort (· ≤ ·) l
  have hperm := List.perm_insertionSort (· ≤ ·) l
  have hconc : trimmedMean [⊤, ((1000:ℤ) : WithTop ℤ), 1200, 1100, 900] =
      eDivNat ((3300:ℤ) : WithTop ℤ) 3 := by
    unfold trimmedMean
    congr 1 <;> decide
  refine ⟨?_, hsorted, hperm, ?_⟩
  · rw [hconc]
    show ((((3300:ℤ):ℚ) / ((Nat.succ 2 : ℕ):ℚ) : ℚ) : WithTop ℚ) = _
    exact_mod_cast (show ((3300:ℤ):ℚ) / ((Nat.succ 2 : ℕ):ℚ) = (1100:ℚ) by norm_num)
  · have hlen : (List.insertionSort (· ≤ ·) l).length = l.length := hperm.length_eq
    cases hs : List.insertionSort (· ≤ ·) l with
    | nil =>
      rw [hs] at hlen
      simp only [List.length_nil] at hlen
      omega
    | cons a tail =>
      have htne : tail ≠ [] := by
        intro hcon
        rw [hs, hcon] at hlen
        simp only [List.length_cons, List.length_nil] at hlen
        omega
      have htm : trimmedMean l =
          eDivNat (tail.dropLast.foldl (· + ·) 0) tail.dropLast.length := by
        show eDivNat (((List.insertionSort (· ≤ ·) l).drop 1).dropLast.foldl (· + ·) 0)
            (((List.insertionSort (· ≤ ·) l).drop 1).dropLast.length) = _
        rw [hs]
        rfl
      refine ⟨a, tail.getLast htne, tail.dropLast, ?_, rfl, ?_, ?_, htm, ?_⟩
      · rw [List.dropLast_append_getLast htne]
      · intro x hx
        have hxs : x ∈ a :: tail := by
          rw [← hs]
          exact (hperm.mem_iff).mpr hx
        rw [hs] at hsorted
        constructor
        · rcases List.mem_cons.mp hxs with h1 | h1
          · rw [h1]
          · exact List.rel_of_sorted_cons hsorted _ h1
        · have := sorted_le_getLast (a :: tail) (List.cons_ne_nil _ _) hsorted x hxs
          rwa [List.getLast_cons htne] at this
      · have h1 : (tail.dropLast ++ [a, tail.getLast htne]).Perm
            (a :: (tail.dropLast ++ [tail.getLast htne])) :=
          @List.perm_middle _ a tail.dropLast [tail.getLast htne]
        rw [List.dropLast_append_getLast htne] at h1
        exact h1.trans (hs ▸ hperm)
      · intro htop
        have hmean : trimmedMean l = ⊤ := by
          rw [htm, foldl_add_top _ _ (Or.inr htop)]
          cases hdl : tail.dropLast with
          | nil =>
            rw [hdl] at htop
            exact absurd htop (List.not_mem_nil _)
          | cons u v => rfl
        exact ⟨hmean, by rw [hmean]; rfl⟩

/-- Witness for C1 at the P5 window. -/
theorem trimmedMean_spec_witness :
    trimmedMean [⊤, ((1000:ℤ) : WithTop ℤ), 1200, 1100, 900] = ((1100:ℚ) : WithTop ℚ) ∧
    List.Sorted (· ≤ ·)
      (List.insertionSort (· ≤ ·) [⊤, ((1000:ℤ) : WithTop ℤ), 1200, 1100, 900]) ∧
    (List.insertionSort (· ≤ ·) [⊤, ((1000:ℤ) : WithTop ℤ), 1200, 1100, 900]).Perm
      [⊤, ((1000:ℤ) : WithTop ℤ), 1200, 1100, 900] ∧
    ∃ mn mx mid,
      List.insertionSort (· ≤ ·) [⊤, ((1000:ℤ) : WithTop ℤ), 1200, 1100, 900] =
        mn :: (mid ++ [mx]) ∧
      mid = ((List.insertionSort (· ≤ ·)
        [⊤, ((1000:ℤ) : WithTop ℤ), 1200, 1100, 900]).drop 1).dropLast ∧
      (∀ x ∈ [⊤, ((1000:ℤ) : WithTop ℤ), 1200, 1100, 900], mn ≤ x ∧ x ≤ mx) ∧
      (mid ++ [mn, mx]).Perm [⊤, ((1000:ℤ) : WithTop ℤ), 1200, 1100, 900] ∧
      trimmedMean [⊤, ((1000:ℤ) : WithTop ℤ), 1200, 1100, 900] =
        eDivNat (mid.foldl (· + ·) 0) mid.length ∧
      (⊤ ∈ mid →
        trimmedMean [⊤, ((1000:ℤ) : WithTop ℤ), 1200, 1100, 900] = ⊤ ∧
        formatAverage (trimmedMean [⊤, ((1000:ℤ) : WithTop ℤ), 1200, 1100, 900]) = "DNF") :=
  trimmedMean_spec [⊤, ((1000:ℤ) : WithTop ℤ), 1200, 1100, 900] (by decide)

theorem sq1Component_bounds (r : Rand) (h : r.inUnit) :
    -5 ≤ sq1Component r ∧ sq1Component r ≤ 6 := by
  have h12 := randIndex_lt r 12 h (by norm_num)
  unfold sq1Component
  omega

theorem pickSq1Pair_ok : ∀ (s : List Rand), ValidRand s →
    ∀ p s1, pickSq1Pair s = some (p, s1) →
      ValidRand s1 ∧
      (-5 ≤ p.1 ∧ p.1 ≤ 6) ∧ (-5 ≤ p.2 ∧ p.2 ≤ 6) ∧ ¬(p.1 = 0 ∧ p.2 = 0)
  | [], _, p, s1, h => by simp [pickSq1Pair] at h
  | [r], _, p, s1, h => by simp [pickSq1Pair] at h
  | r1 :: r2 :: rest, hv, p, s1, h => by
    rw [pickSq1Pair] at h
    split_ifs at h with hc
    · exact pickSq1Pair_ok rest
        (fun x hx => hv x (List.mem_cons_of_mem _ (List.mem_cons_of_mem _ hx)))
        p s1 h
    · have hp : p = (sq1Component r1, sq1Component r2) ∧ s1 = rest := by
        constructor <;> [exact (Prod.mk.injEq _ _ _ _ ▸ (Option.some.injEq _ _ ▸ h)).1.symm;
          exact (Prod.mk.injEq _ _ _ _ ▸ (Option.some.injEq _ _ ▸ h)).2.symm]
      obtain ⟨hp1, hp2⟩ := hp
      have hb1 := sq1Component_bounds r1 (hv r1 (List.mem_cons_self _ _))
      have hb2 := sq1Component_bounds r2
        (hv r2 (List.mem_cons_of_mem _ (List.mem_cons_self _ _)))
      subst hp1 hp2
      exact ⟨fun x hx => hv x (List.mem_cons_of_mem _ (List.mem_cons_of_mem _ hx)),
        ⟨hb1.1, hb1.2⟩, ⟨hb2.1, hb2.2⟩, hc⟩

theorem genSq1_ok : ∀ (n : ℕ) (s : List Rand), ValidRand s →
    ∀ ps s2, genSq1 n s = some (ps, s2) →
      ps.length = n ∧
      (∀ p ∈ ps, (-5 ≤ p.1 ∧ p.1 ≤ 6) ∧ (-5 ≤ p.2 ∧ p.2 ≤ 6) ∧ ¬(p.1 = 0 ∧ p.2 = 0)) ∧
      ValidRand s2 := by
  intro n
  induction n with
  | zero =>
    intro s hv ps s2 h
    rw [genSq1] at h
    simp only [Option.some.injEq, Prod.mk.injEq] at h
    obtain ⟨h1, h2⟩ := h
    subst h1 h2
    exact ⟨rfl, by intro p hp; exact absurd hp (List.not_mem_nil _), hv⟩
  | succ m ih =>
    intro s hv ps s2 h
    rw [genSq1] at h
    cases hpk : pickSq1Pair s with
    | none =>
      rw [hpk] at h
      have h3 : (Option.none : Option (List (ℤ × ℤ) × List Rand)) = some (ps, s2) := h
      exact absurd h3 (by simp)
    | some v =>
      obtain ⟨p, s1⟩ := v
      rw [hpk] at h
      have hps1 := pickSq1Pair_ok s hv p s1 hpk
      have h2 : (match genSq1 m s1 with
          | Option.none => Option.none
          | some (tl, s3) => some (p :: tl, s3)) = some (ps, s2) := h
      cases hg : genSq1 m s1 with
      | none =>
        rw [hg] at h2
        have h3 : (Option.none : Option (List (ℤ × ℤ) × List Rand)) = some (ps, s2) := h2
        exact absurd h3 (by simp)
      | some w =>
        obtain ⟨tl, s3⟩ := w
        rw [hg] at h2
        have h3 : some (p :: tl, s3) = some (ps, s2) := h2
        have hih := ih s1 hps1.1 tl s3 hg
        simp only [Option.some.injEq, Prod.mk.injEq] at h3
        obtain ⟨hps, hs2⟩ := h3
        subst hps hs2
        refine ⟨by simp [hih.1], ?_, hih.2.2⟩
        intro q hq
        rcases List.mem_cons.mp hq with h1 | h1
        · subst h1; exact hps1.2
        · exact hih.2.1 q h1

/-- C2 counterexample: with a valid random stream (each value 31/32 ∈ [0,1)),
every emitted pair is (6, 6); the component 6 falsifies the claimed interval
[-5, 6), since 6 < 6 fails. -/
theorem sq1_counterexample :
    ValidRand (List.replicate 26 (Rand.mk 31 5)) ∧
    genSq1 13 (List.replicate 26 (Rand.mk 31 5)) =
      some (List.replicate 13 ((6:ℤ), (6:ℤ)), []) ∧
    ¬((6:ℤ) < 6) := by decide

/-- C2 (amended): the Sq-1 scramble is 13 independently drawn pairs, each
component an integer in [-5, 6] (the 12 values Math.floor(random*12) - 5 can
take), the pair (0,0) is redrawn and never emitted, and the pairs are
formatted (top,bottom) joined by " / ". -/
theorem sq1_spec (s : List Rand) (ps : List (ℤ × ℤ)) (s2 : List Rand)
    (hv : ValidRand s) (h : genSq1 13 s = some (ps, s2)) :
    ps.length = 13 ∧
    (∀ p ∈ ps, (-5 ≤ p.1 ∧ p.1 ≤ 6) ∧ (-5 ≤ p.2 ∧ p.2 ≤ 6) ∧ ¬(p.1 = 0 ∧ p.2 = 0)) ∧
    generateSq1Scramble s = some (String.intercalate " / " (ps.map sq1PairString)) := by
  have hg := genSq1_ok 13 s hv ps s2 h
  refine ⟨hg.1, hg.2.1, ?_⟩
  unfold generateSq1Scramble
  rw [h]

/-- Witness for C2 at a concrete valid stream (every value 1/2). -/
theorem sq1_spec_witness :
    (List.replicate 13 ((1:ℤ), (1:ℤ))).length = 13 ∧
    (∀ p ∈ List.replicate 13 ((1:ℤ), (1:ℤ)),
      (-5 ≤ p.1 ∧ p.1 ≤ 6) ∧ (-5 ≤ p.2 ∧ p.2 ≤ 6) ∧ ¬(p.1 = 0 ∧ p.2 = 0)) ∧
    generateSq1Scramble (List.replicate 26 (Rand.mk 1 1)) =
      some (String.intercalate " / "
        ((List.replicate 13 ((1:ℤ), (1:ℤ))).map sq1PairString)) :=
  sq1_spec (List.replicate 26 (Rand.mk 1 1)) (List.replicate 13 ((1:ℤ), (1:ℤ))) []
    (by decide) (by decide)

/-! ### Lemmas on the face-turning rejection loop -/

theorem validRand_tail {r : Rand} {rest : List Rand} (hv : ValidRand (r :: rest)) :
    ValidRand rest :=
  fun x hx => hv x (List.mem_cons_of_mem _ hx)

theorem pickFace_ok (faces : List FaceConfig) (last second : String) :
    ∀ (s : List Rand), ValidRand s → ∀ fe s1,
      pickFace faces last second s = .ok (fe, s1) →
      fe ∈ faces ∧ rejectName fe.face last second = false ∧ ValidRand s1 := by
  intro s
  induction s with
  | nil =>
    intro _ fe s1 h
    exact absurd h (by simp [pickFace])
  | cons r rest ih =>
    intro hv fe s1 h
    rw [pickFace] at h
    cases hget : faces.get? (randIndex r faces.length) with
    | none =>
      rw [hget] at h
      have h3 : (GenResult.jsError : GenResult (FaceConfig × List Rand)) = .ok (fe, s1) := h
      exact absurd h3 (by simp)
    | some fe2 =>
      rw [hget] at h
      have h3 : (if rejectName fe2.face last second then
          pickFace faces last second rest else .ok (fe2, rest)) = .ok (fe, s1) := h
      split_ifs at h3 with hr
      · exact ih (validRand_tail hv) fe s1 h3
      · simp only [GenResult.ok.injEq, Prod.mk.injEq] at h3
        obtain ⟨h4, h5⟩ := h3
        subst h4 h5
        exact ⟨List.get?_mem hget, Bool.of_not_eq_true hr, validRand_tail hv⟩

theorem pickFace_ne_jsError (faces : List FaceConfig) (last second : String)
    (hne : faces ≠ []) :
    ∀ (s : List Rand), ValidRand s → pickFace faces last second s ≠ .jsError := by
  intro s
  induction s with
  | nil =>
    intro _ h
    exact absurd h (by simp [pickFace])
  | cons r rest ih =>
    intro hv h
    rw [pickFace] at h
    have hlen : 1 ≤ faces.length := by
      cases faces with
      | nil => exact absurd rfl hne
      | cons a t => simp
    have hidx := randIndex_lt r faces.length (hv r (List.mem_cons_self _ _)) hlen
    rw [List.get?_eq_get hidx] at h
    have h3 : (if rejectName (faces.get ⟨randIndex r faces.length, hidx⟩).face last second
        then pickFace faces last second rest
        else .ok (faces.get ⟨randIndex r faces.length, hidx⟩, rest)) = .jsError := h
    split_ifs at h3 with hr
    exact ih (validRand_tail hv) h3

theorem pickFace_all_reject (faces : List FaceConfig) (last second : String)
    (hne : faces ≠ [])
    (hall : ∀ fc ∈ faces, rejectName fc.face last second = true) :
    ∀ (s : List Rand), ValidRand s → pickFace faces last second s = .fuelOut := by
  intro s
  induction s with
  | nil => intro _; rfl
  | cons r rest ih =>
    intro hv
    rw [pickFace]
    have hlen : 1 ≤ faces.length := by
      cases faces with
      | nil => exact absurd rfl hne
      | cons a t => simp
    have hidx := randIndex_lt r faces.length (hv r (List.mem_cons_self _ _)) hlen
    rw [List.get?_eq_get hidx]
    show (if rejectName (faces.get ⟨randIndex r faces.length, hidx⟩).face last second
        then pickFace faces last second rest
        else .ok (faces.get ⟨randIndex r faces.length, hidx⟩, rest)) = .fuelOut
    rw [if_pos (hall _ (List.get_mem _ _ _)), ih (validRand_tail hv)]

/-- Full characterisation of a successful face-turning generation run:
exactly n tokens; the face trace is accepted step by step against its two
predecessors; every face comes from the spec and, when that face has
candidate moves, its token is one candidate move concatenated with one of the
three modifiers. -/
theorem genMoves_ok (faces : List FaceConfig) :
    ∀ (n : ℕ) (last second : String) (s : List Rand), ValidRand s →
    ∀ ms s2, genMoves faces n last second s = .ok (ms, s2) →
      ms.length = n ∧
      TriChain second last (ms.map Prod.fst) ∧
      (∀ pr ∈ ms, ∃ fc ∈ faces, pr.1 = fc.face ∧
        (fc.moves ≠ [] → ∃ b ∈ fc.moves, ∃ m ∈ MODIFIERS, pr.2 = b ++ m)) ∧
      ValidRand s2 := by
  intro n
  induction n with
  | zero =>
    intro last second s hv ms s2 h
    rw [genMoves] at h
    simp only [GenResult.ok.injEq, Prod.mk.injEq] at h
    obtain ⟨h1, h2⟩ := h
    subst h1 h2
    exact ⟨rfl, trivial, by intro pr hpr; exact absurd hpr (List.not_mem_nil _), hv⟩
  | succ m ih =>
    intro last second s hv ms s2 h
    rw [genMoves] at h
    cases hpk : pickFace faces last second s with
    | jsError =>
      rw [hpk] at h
      exact absurd (show (GenResult.jsError : GenResult _) = .ok (ms, s2) from h) (by simp)
    | fuelOut =>
      rw [hpk] at h
      exact absurd (show (GenResult.fuelOut : GenResult _) = .ok (ms, s2) from h) (by simp)
    | ok v =>
      obtain ⟨fe, s1⟩ := v
      rw [hpk] at h
      have hpf := pickFace_ok faces last second s hv fe s1 hpk
      have h2 : (match s1 with
          | [] => (GenResult.fuelOut : GenResult (List (String × String) × List Rand))
          | rMove :: s2 =>
            match s2 with
            | [] => .fuelOut
            | rMod :: s3 =>
              match genMoves faces m fe.face last s3 with
              | .ok (tl, s4) =>
                .ok ((fe.face, fe.moves.getD (randIndex rMove fe.moves.length) "undefined" ++
                  MODIFIERS.getD (randIndex rMod MODIFIERS.length) "undefined") :: tl, s4)
              | .jsError => .jsError
              | .fuelOut => .fuelOut) = .ok (ms, s2) := h
      cases s1 with
      | nil => exact absurd (show (GenResult.fuelOut : GenResult _) = .ok (ms, s2) from h2) (by simp)
      | cons rMove t1 =>
        cases t1 with
        | nil => exact absurd (show (GenResult.fuelOut : GenResult _) = .ok (ms, s2) from h2) (by simp)
        | cons rMod s3 =>
          have hv1 : ValidRand (rMove :: rMod :: s3) := hpf.2.2
          have hv3 : ValidRand s3 := validRand_tail (validRand_tail hv1)
          have h3 : (match genMoves faces m fe.face last s3 with
              | .ok (tl, s4) =>
                (.ok ((fe.face, fe.moves.getD (randIndex rMove fe.moves.length) "undefined" ++
                  MODIFIERS.getD (randIndex rMod MODIFIERS.length) "undefined") :: tl, s4) :
                  GenResult (List (String × String) × List Rand))
              | .jsError => .jsError
              | .fuelOut => .fuelOut) = .ok (ms, s2) := h2
          cases hg : genMoves faces m fe.face last s3 with
          | jsError =>
            rw [hg] at h3
            exact absurd (show (GenResult.jsError : GenResult _) = .ok (ms, s2) from h3) (by simp)
          | fuelOut =>
            rw [hg] at h3
            exact absurd (show (GenResult.fuelOut : GenResult _) = .ok (ms, s2) from h3) (by simp)
          | ok w =>
            obtain ⟨tl, s4⟩ := w
            rw [hg] at h3
            have h4 : ((fe.face, fe.moves.getD (randIndex rMove fe.moves.length) "undefined" ++
                MODIFIERS.getD (randIndex rMod MODIFIERS.length) "undefined") :: tl, s4) =
                (ms, s2) := by
              simpa using h3
            obtain ⟨hms, hs2⟩ := Prod.mk.injEq .. ▸ h4
            have hih := ih fe.face last s3 hv3 tl s4 hg
            subst hs2
            rw [← hms]
            refine ⟨by simp [hih.1], ⟨hpf.2.1, hih.2.1⟩, ?_, hih.2.2.2⟩
            intro pr hpr
            rcases List.mem_cons.mp hpr with hpr1 | hpr1
            · refine ⟨fe, hpf.1, by rw [hpr1], ?_⟩
              intro hmne
              have hmlen : 1 ≤ fe.moves.length := by
                cases hmv : fe.moves with
                | nil => exact absurd hmv hmne
                | cons a t => simp
              have hmidx := randIndex_lt rMove fe.moves.length
                (hv1 rMove (List.mem_cons_self _ _)) hmlen
              have hdidx := randIndex_lt rMod MODIFIERS.length
                (hv1 rMod (List.mem_cons_of_mem _ (List.mem_cons_self _ _))) (by decide)
              refine ⟨fe.moves.getD (randIndex rMove fe.moves.length) "undefined",
                ?_, MODIFIERS.getD (randIndex rMod MODIFIERS.length) "undefined", ?_, ?_⟩
              · rw [List.getD_eq_get _ _ hmidx]
                exact List.get_mem _ _ _
              · rw [List.getD_eq_get _ _ hdidx]
                exact List.get_mem _ _ _
              · rw [hpr1]
            · exact hih.2.2.1 pr hpr1

theorem rejectName_false (f l s : String) (h : rejectName f l s = false) :
    f ≠ l ∧ (l ≠ "" → s ≠ "" → ¬(AXIS f = AXIS l ∧ AXIS l = AXIS s)) := by
  rw [rejectName, Bool.or_eq_false_iff] at h
  obtain ⟨h1, h2⟩ := h
  refine ⟨by simpa using h1, ?_⟩
  intro hl hs hax
  have hl2 : (l != "") = true := by simpa using hl
  have hs2 : (s != "") = true := by simpa using hs
  have ha2 : (AXIS f == AXIS l) = true := by simpa using hax.1
  have hb2 : (AXIS l == AXIS s) = true := by simpa using hax.2
  rw [hl2, hs2, ha2, hb2] at h2
  simp at h2

theorem triChain_chain : ∀ (l : List String) (a b : String),
    TriChain a b l → List.Chain' (· ≠ ·) l
  | [], _, _, _ => List.chain'_nil
  | [c], _, _, _ => List.chain'_singleton c
  | c :: d :: tl, a, b, ht => by
    have ht2 : TriChain b c (d :: tl) := ht.2
    have h2 : rejectName d c b = false := ht2.1
    rw [List.chain'_cons]
    exact ⟨Ne.symm (rejectName_false d c b h2).1, triChain_chain (d :: tl) b c ht2⟩

theorem triChain_noAxisTriple : ∀ (l : List String) (a b : String),
    TriChain a b l → (∀ x ∈ l, x ≠ "") → noAxisTriple l
  | [], _, _, _, _ => trivial
  | [_], _, _, _, _ => trivial
  | [_, _], _, _, _, _ => trivial
  | c :: d :: e :: tl, a, b, ht, hne => by
    have ht2 : TriChain b c (d :: e :: tl) := ht.2
    have ht3 : TriChain c d (e :: tl) := ht2.2
    have h3 : rejectName e d c = false := ht3.1
    refine ⟨?_, triChain_noAxisTriple (d :: e :: tl) b c ht2
      (fun x hx => hne x (List.mem_cons_of_mem _ hx))⟩
    intro hax
    have hcne : c ≠ "" := hne c (List.mem_cons_self _ _)
    have hdne : d ≠ "" := hne d (List.mem_cons_of_mem _ (List.mem_cons_self _ _))
    exact (rejectName_false e d c h3).2 hdne hcne ⟨hax.2.symm, hax.1.symm⟩

/-- C4: in every successfully generated face-turning scramble, no two
consecutive tokens share a faceId and no three consecutive tokens share an
AXIS value (faceIds are actual face symbols, so none collides with the empty
string that the loop state uses as its initial sentinel). -/
theorem scramble_invariants_spec (faces : List FaceConfig) (n : ℕ) (s : List Rand)
    (ms : List (String × String)) (s2 : List Rand)
    (hv : ValidRand s)
    (hface : ∀ fc ∈ faces, fc.face ≠ "")
    (h : genMoves faces n "" "" s = .ok (ms, s2)) :
    List.Chain' (· ≠ ·) (ms.map Prod.fst) ∧ noAxisTriple (ms.map Prod.fst) := by
  have hg := genMoves_ok faces n "" "" s hv ms s2 h
  have htri := hg.2.1
  have hmem : ∀ x ∈ ms.map Prod.fst, x ≠ "" := by
    intro x hx
    obtain ⟨pr, hpr, hpx⟩ := List.mem_map.mp hx
    obtain ⟨fc, hfc, hface_eq, _⟩ := hg.2.2.1 pr hpr
    rw [← hpx, hface_eq]
    exact hface fc hfc
  exact ⟨triChain_chain _ "" "" htri, triChain_noAxisTriple _ "" "" htri hmem⟩

/-- Witness for C4 at a concrete 3-token run over the 2x2 face list. -/
theorem scramble_invariants_spec_witness :
    List.Chain' (· ≠ ·) (([("R", "R"), ("U", "U"), ("F", "F")] :
      List (String × String)).map Prod.fst) ∧
    noAxisTriple (([("R", "R"), ("U", "U"), ("F", "F")] :
      List (String × String)).map Prod.fst) :=
  scramble_invariants_spec FACES_2 3
    [⟨0, 0⟩, ⟨0, 0⟩, ⟨0, 0⟩, ⟨1, 1⟩, ⟨0, 0⟩, ⟨0, 0⟩, ⟨3, 2⟩, ⟨0, 0⟩, ⟨0, 0⟩]
    [("R", "R"), ("U", "U"), ("F", "F")] []
    (by decide) (by decide) (by decide)

/-- C5: a successful face-turning generation of a spec with scrambleLength L
returns the join (single spaces) of exactly L tokens, each a candidate move
of the drawn face concatenated with one of the three modifiers. -/
theorem generate_length_tokens_spec (event : EventConfig) (s : List Rand)
    (ms : List (String × String)) (s2 : List Rand)
    (hc : event.customScramble = Option.none) (hv : ValidRand s)
    (hm : ∀ fc ∈ event.faces, fc.moves ≠ [])
    (h : genMoves event.faces event.scrambleLength "" "" s = .ok (ms, s2)) :
    generateScramble event s = .ok (String.intercalate " " (ms.map Prod.snd)) ∧
    ms.length = event.scrambleLength ∧
    ∀ pr ∈ ms, ∃ fc ∈ event.faces, pr.1 = fc.face ∧
      ∃ b ∈ fc.moves, ∃ m ∈ MODIFIERS, pr.2 = b ++ m := by
  have hg := genMoves_ok event.faces event.scrambleLength "" "" s hv ms s2 h
  refine ⟨?_, hg.1, ?_⟩
  · unfold generateScramble
    rw [hc, h]
  · intro pr hpr
    obtain ⟨fc, hfc, hfe, htok⟩ := hg.2.2.1 pr hpr
    exact ⟨fc, hfc, hfe, htok (hm fc hfc)⟩

/-- Witness for C5 at a concrete 3-token run over the 2x2 face list. -/
theorem generate_length_tokens_spec_witness :
    generateScramble ⟨"t", "t", 3, FACES_2, Option.none, EventGroup.nxn⟩
        [⟨0, 0⟩, ⟨0, 0⟩, ⟨0, 0⟩, ⟨1, 1⟩, ⟨0, 0⟩, ⟨0, 0⟩, ⟨3, 2⟩, ⟨0, 0⟩, ⟨0, 0⟩] =
      .ok (String.intercalate " " (([("R", "R"), ("U", "U"), ("F", "F")] :
        List (String × String)).map Prod.snd)) ∧
    ([("R", "R"), ("U", "U"), ("F", "F")] : List (String × String)).length =
      (⟨"t", "t", 3, FACES_2, Option.none, EventGroup.nxn⟩ : EventConfig).scrambleLength ∧
    ∀ pr ∈ ([("R", "R"), ("U", "U"), ("F", "F")] : List (String × String)),
      ∃ fc ∈ (⟨"t", "t", 3, FACES_2, Option.none, EventGroup.nxn⟩ : EventConfig).faces,
        pr.1 = fc.face ∧ ∃ b ∈ fc.moves, ∃ m ∈ MODIFIERS, pr.2 = b ++ m :=
  generate_length_tokens_spec ⟨"t", "t", 3, FACES_2, Option.none, EventGroup.nxn⟩
    [⟨0, 0⟩, ⟨0, 0⟩, ⟨0, 0⟩, ⟨1, 1⟩, ⟨0, 0⟩, ⟨0, 0⟩, ⟨3, 2⟩, ⟨0, 0⟩, ⟨0, 0⟩]
    [("R", "R"), ("U", "U"), ("F", "F")] []
    rfl (by decide) (by decide) (by decide)

/-! ### C3: malformed FaceTurning specs -/

theorem genMoves_empty_jsError (n : ℕ) :
    ∀ (s : List Rand), s ≠ [] → genMoves [] (n + 1) "" "" s = .jsError := by
  intro s hne
  cases s with
  | nil => exact absurd rfl hne
  | cons r rest =>
    have hp : pickFace [] "" "" (r :: rest) = .jsError := by
      have hidx : randIndex r ([] : List FaceConfig).length = 0 := by
        simp [randIndex]
      rw [pickFace, hidx]
      rfl
    rw [genMoves, hp]

theorem axisBad_dead1 (last second : String) (s : List Rand) (hv : ValidRand s)
    (hall : ∀ fc ∈ axisBadFaces, rejectName fc.face last second = true) :
    genMoves axisBadFaces 1 last second s = .fuelOut := by
  have hp := pickFace_all_reject axisBadFaces last second (by decide) hall s hv
  show genMoves axisBadFaces (0 + 1) last second s = .fuelOut
  rw [genMoves, hp]

theorem axisBad_dead2 (last : String) (hlast : last = "R" ∨ last = "L") :
    ∀ (s : List Rand), ValidRand s → genMoves axisBadFaces 2 last "" s = .fuelOut := by
  intro s hv
  show genMoves axisBadFaces (1 + 1) last "" s = .fuelOut
  cases hp : pickFace axisBadFaces last "" s with
  | jsError => exact absurd hp (pickFace_ne_jsError _ _ _ (by decide) s hv)
  | fuelOut => rw [genMoves, hp]
  | ok v =>
    obtain ⟨fe, s1⟩ := v
    rw [genMoves, hp]
    have hpf := pickFace_ok axisBadFaces last "" s hv fe s1 hp
    cases s1 with
    | nil => rfl
    | cons rM t1 =>
      cases t1 with
      | nil => rfl
      | cons rD s3 =>
        have hv3 : ValidRand s3 := validRand_tail (validRand_tail hpf.2.2)
        have hfe : fe = ⟨"R", ["R"]⟩ ∨ fe = ⟨"L", ["L"]⟩ := by
          have hmem := hpf.1
          simpa [axisBadFaces] using hmem
        have hne_last : fe.face ≠ last := (rejectName_false fe.face last "" hpf.2.1).1
        have hall : ∀ fc ∈ axisBadFaces, rejectName fc.face fe.face last = true := by
          rcases hfe with h | h <;> rcases hlast with h2 | h2 <;> subst h h2 <;>
            first
            | exact absurd rfl hne_last
            | decide
        have hdead := axisBad_dead1 fe.face last s3 hv3 hall
        show (match genMoves axisBadFaces 1 fe.face last s3 with
            | GenResult.ok (tl, s4) =>
              GenResult.ok ((fe.face,
                fe.moves.getD (randIndex rM fe.moves.length) "undefined" ++
                MODIFIERS.getD (randIndex rD MODIFIERS.length) "undefined") :: tl, s4)
            | GenResult.jsError => GenResult.jsError
            | GenResult.fuelOut => GenResult.fuelOut) = GenResult.fuelOut
        rw [hdead]

theorem axisBad_dead (s : List Rand) (hv : ValidRand s) :
    genMoves axisBadFaces 3 "" "" s = .fuelOut := by
  show genMoves axisBadFaces (2 + 1) "" "" s = .fuelOut
  cases hp : pickFace axisBadFaces "" "" s with
  | jsError => exact absurd hp (pickFace_ne_jsError _ _ _ (by decide) s hv)
  | fuelOut => rw [genMoves, hp]
  | ok v =>
    obtain ⟨fe, s1⟩ := v
    rw [genMoves, hp]
    have hpf := pickFace_ok axisBadFaces "" "" s hv fe s1 hp
    cases s1 with
    | nil => rfl
    | cons rM t1 =>
      cases t1 with
      | nil => rfl
      | cons rD s3 =>
        have hv3 : ValidRand s3 := validRand_tail (validRand_tail hpf.2.2)
        have hfe : fe.face = "R" ∨ fe.face = "L" := by
          have hmem := hpf.1
          have h2 : fe = (⟨"R", ["R"]⟩ : FaceConfig) ∨ fe = ⟨"L", ["L"]⟩ := by
            simpa [axisBadFaces] using hmem
          rcases h2 with h | h
          · exact Or.inl (by rw [h])
          · exact Or.inr (by rw [h])
        have hdead := axisBad_dead2 fe.face hfe s3 hv3
        show (match genMoves axisBadFaces 2 fe.face "" s3 with
            | GenResult.ok (tl, s4) =>
              GenResult.ok ((fe.face,
                fe.moves.getD (randIndex rM fe.moves.length) "undefined" ++
                MODIFIERS.getD (randIndex rD MODIFIERS.length) "undefined") :: tl, s4)
            | GenResult.jsError => GenResult.jsError
            | GenResult.fuelOut => GenResult.fuelOut) = GenResult.fuelOut
        rw [hdead]

/-- C3 counterexample: the two-face one-axis spec is malformed (2 distinct
faceIds, fewer than the required 3, with scrambleLength 3 > 0), yet generate
does not fail fast there: for every finite amount of randomness it neither
signals an error nor returns — the rejection loop runs forever. -/
theorem generate_failfast_counterexample :
    (axisBadFaces.map FaceConfig.face = ["R", "L"] ∧
      ¬(3 ≤ (axisBadFaces.map FaceConfig.face).length) ∧
      axisBadEvent.scrambleLength = 3) ∧
    axisBadDiverges := by
  refine ⟨by decide, ?_⟩
  intro s hv
  have hd := axisBad_dead s hv
  show (match genMoves axisBadFaces 3 "" "" s with
      | GenResult.ok (ms, _) => GenResult.ok (String.intercalate " " (ms.map Prod.snd))
      | GenResult.jsError => GenResult.jsError
      | GenResult.fuelOut => GenResult.fuelOut) = GenResult.fuelOut
  rw [hd]

/-- C3 (amended): for a FaceTurning spec with an empty face list and positive
scrambleLength, generate fails fast (a TypeError on the very first draw); for
a spec violating the axis-diversity invariant (here two faces on one axis,
scrambleLength 3), generate loops forever: it neither errors nor returns. -/
theorem generate_failfast_amended (s : List Rand) (n : ℕ)
    (hv : ValidRand s) (hne : s ≠ []) :
    generateScramble (emptyFacesEvent n) s = .jsError ∧
    generateScramble axisBadEvent s = .fuelOut := by
  constructor
  · have he := genMoves_empty_jsError n s hne
    show (match genMoves [] (n + 1) "" "" s with
        | GenResult.ok (ms, _) => GenResult.ok (String.intercalate " " (ms.map Prod.snd))
        | GenResult.jsError => GenResult.jsError
        | GenResult.fuelOut => GenResult.fuelOut) = GenResult.jsError
    rw [he]
  · have hd := axisBad_dead s hv
    show (match genMoves axisBadFaces 3 "" "" s with
        | GenResult.ok (ms, _) => GenResult.ok (String.intercalate " " (ms.map Prod.snd))
        | GenResult.jsError => GenResult.jsError
        | GenResult.fuelOut => GenResult.fuelOut) = GenResult.fuelOut
    rw [hd]

/-- Witness for C3 (amended) at a concrete one-element valid stream. -/
theorem generate_failfast_amended_witness :
    generateScramble (emptyFacesEvent 0) [⟨0, 0⟩] = .jsError ∧
    generateScramble axisBadEvent [⟨0, 0⟩] = .fuelOut :=
  generate_failfast_amended [⟨0, 0⟩] 0 (by decide) (by decide)

end Scrambl
